import Mathlib

/-!
Verification of the geppetoaudio streaming-audio client (mainaudio.go and the
audiotypes package) against its natural-language specification.

The development is a shallow embedding: bytes are `Nat` values kept below 256
by construction, Go maps become functions into `Option`, fallible I/O steps
(file create/write, WebSocket writes) are driven by explicit boolean oracles,
and Go's machine integers are modelled with explicit `% 2 ^ 32` truncation
where the source converts through `uint32`.
-/

namespace GeppetoAudio

/-- Little-endian byte list of a 16-bit value, as emitted by one
`binary.Write(file, binary.LittleEndian, uint16(...))` call in
`writeWAVHeader` (mainaudio.go). -/
def u16le (n : Nat) : List Nat := [n % 256, n / 2 ^ 8 % 256]

/-- Little-endian byte list of a 32-bit value, as emitted by one
`binary.Write(file, binary.LittleEndian, uint32(...))` call in
`writeWAVHeader` (mainaudio.go).  Every byte depends only on `n % 2 ^ 32`,
matching the `uint32` truncation of the Go value. -/
def u32le (n : Nat) : List Nat :=
  [n % 256, n / 2 ^ 8 % 256, n / 2 ^ 16 % 256, n / 2 ^ 24 % 256]

/-- Shallow embedding of `writeWAVHeader` (mainaudio.go, lines 329-352): the
44 header bytes written before the raw samples.  The marker bytes are the
ASCII codes of "RIFF", "WAVE", "fmt " and "data"; the numeric fields are the
hard-coded constants of the source (PCM format 1, mono, 24000 Hz, byte rate
48000, block align 2, 16 bits per sample). -/
def writeWAVHeader (dataSize : Nat) : List Nat :=
  [82, 73, 70, 70]
    ++ u32le (dataSize + 36)
    ++ [87, 65, 86, 69]
    ++ [102, 109, 116, 32]
    ++ u32le 16
    ++ u16le 1
    ++ u16le 1
    ++ u32le 24000
    ++ u32le 48000
    ++ u16le 2
    ++ u16le 16
    ++ [100, 97, 116, 97]
    ++ u32le dataSize

/-- File content produced by `saveAudioOnly` for drained audio bytes `pcm`:
the header followed by the raw samples.  The source passes
`uint32(len(audioData))` to `writeWAVHeader`, hence the `% 2 ^ 32`. -/
def encodeWAV (pcm : List Nat) : List Nat :=
  writeWAVHeader (pcm.length % 2 ^ 32) ++ pcm

/-- Specification-side header layout, written from the spec's field list for
the container encoder (header marker "RIFF", `len(pcm)+36` as a 32-bit size,
"WAVE", "fmt ", subchunk size 16, audio format 1, channel count, sample rate,
byte rate = sampleRate*channels*bitsPerSample/8, block align =
channels*bitsPerSample/8, bits per sample, "data", `len(pcm)` as a 32-bit
size), to be compared with the source-side `writeWAVHeader`. -/
def specWAVHeader (pcmLen : Nat) : List Nat :=
  [82, 73, 70, 70]
    ++ u32le (pcmLen + 36)
    ++ [87, 65, 86, 69]
    ++ [102, 109, 116, 32]
    ++ u32le 16
    ++ u16le 1
    ++ u16le 1
    ++ u32le 24000
    ++ u32le (24000 * 1 * 16 / 8)
    ++ u16le (1 * 16 / 8)
    ++ u16le 16
    ++ [100, 97, 116, 97]
    ++ u32le pcmLen

/-- The `WAVHeader` struct of mainaudio.go (lines 55-67), as filled in by
`binary.Read(file, binary.LittleEndian, &header)`: eleven fields covering the
first 36 bytes of the file. -/
structure WAVHeader where
  chunkID : List Nat
  chunkSize : Nat
  format : List Nat
  subchunk1ID : List Nat
  subchunk1Size : Nat
  audioFormat : Nat
  numChannels : Nat
  sampleRate : Nat
  byteRate : Nat
  blockAlign : Nat
  bitsPerSample : Nat
deriving DecidableEq, Repr

/-- Value of a little-endian 16-bit field from its two bytes. -/
def parseU16 (a b : Nat) : Nat := a + 2 ^ 8 * b

/-- Value of a little-endian 32-bit field from its four bytes. -/
def parseU32 (a b c d : Nat) : Nat := a + 2 ^ 8 * b + 2 ^ 16 * c + 2 ^ 24 * d

/-- Shallow embedding of the `binary.Read` step of `validateWAVFormat`: the
struct is filled from the first 36 bytes of the file; fewer than 36 bytes is
a read error (`none`). -/
def parseWAVHeader : List Nat → Option WAVHeader
  | a0 :: a1 :: a2 :: a3 :: b0 :: b1 :: b2 :: b3 :: c0 :: c1 :: c2 :: c3 ::
    d0 :: d1 :: d2 :: d3 :: e0 :: e1 :: e2 :: e3 :: f0 :: f1 :: g0 :: g1 ::
    h0 :: h1 :: h2 :: h3 :: i0 :: i1 :: i2 :: i3 :: j0 :: j1 :: k0 :: k1 :: _ =>
    some
      { chunkID := [a0, a1, a2, a3]
        chunkSize := parseU32 b0 b1 b2 b3
        format := [c0, c1, c2, c3]
        subchunk1ID := [d0, d1, d2, d3]
        subchunk1Size := parseU32 e0 e1 e2 e3
        audioFormat := parseU16 f0 f1
        numChannels := parseU16 g0 g1
        sampleRate := parseU32 h0 h1 h2 h3
        byteRate := parseU32 i0 i1 i2 i3
        blockAlign := parseU16 j0 j1
        bitsPerSample := parseU16 k0 k1 }
  | _ => none

/-- Distinct rejection reasons of `validateWAVFormat` (mainaudio.go, lines
432-467), one constructor per `fmt.Errorf` message; the `got` argument is the
offending value interpolated into the message. -/
inductive WAVError where
  | readHeader
  | invalidFormat
  | notPCM (got : Nat)
  | notSixteenBit (got : Nat)
  | notMono (got : Nat)
  | wrongSampleRate (got : Nat)
deriving DecidableEq, Repr

/-- Field checks of `validateWAVFormat`, in source order: the three marker
strings together, then audio format, bits per sample, channel count, and
sample rate, each with its own error. -/
def validateHeader (h : WAVHeader) : Except WAVError Unit :=
  if h.chunkID ≠ [82, 73, 70, 70] ∨ h.format ≠ [87, 65, 86, 69] ∨
      h.subchunk1ID ≠ [102, 109, 116, 32] then
    .error .invalidFormat
  else if h.audioFormat ≠ 1 then
    .error (.notPCM h.audioFormat)
  else if h.bitsPerSample ≠ 16 then
    .error (.notSixteenBit h.bitsPerSample)
  else if h.numChannels ≠ 1 then
    .error (.notMono h.numChannels)
  else if h.sampleRate ≠ 24000 then
    .error (.wrongSampleRate h.sampleRate)
  else
    .ok ()

/-- Shallow embedding of `validateWAVFormat` on the file's bytes:
`binary.Read` the header, then run the field checks. -/
def validateWAVFormat (bytes : List Nat) : Except WAVError Unit :=
  match parseWAVHeader bytes with
  | none => .error .readHeader
  | some h => validateHeader h

/-- The header value recovered by `parseWAVHeader` from the output of
`writeWAVHeader dataSize`. -/
def goodWAVHeader (dataSize : Nat) : WAVHeader :=
  { chunkID := [82, 73, 70, 70]
    chunkSize := (dataSize + 36) % 2 ^ 32
    format := [87, 65, 86, 69]
    subchunk1ID := [102, 109, 116, 32]
    subchunk1Size := 16
    audioFormat := 1
    numChannels := 1
    sampleRate := 24000
    byteRate := 48000
    blockAlign := 2
    bitsPerSample := 16 }

/-- A header with the audio-format field overwritten. -/
def withAudioFormat (h : WAVHeader) (v : Nat) : WAVHeader :=
  { h with audioFormat := v }

/-- A header with the channel-count field overwritten. -/
def withNumChannels (h : WAVHeader) (v : Nat) : WAVHeader :=
  { h with numChannels := v }

/-- A header with the sample-rate field overwritten. -/
def withSampleRate (h : WAVHeader) (v : Nat) : WAVHeader :=
  { h with sampleRate := v }

/-- A header with the bits-per-sample field overwritten. -/
def withBitsPerSample (h : WAVHeader) (v : Nat) : WAVHeader :=
  { h with bitsPerSample := v }

/-- Decidable equality for `Except`, used to evaluate results of the
embedded fallible operations on concrete inputs. -/
instance {ε α : Type} [DecidableEq ε] [DecidableEq α] : DecidableEq (Except ε α) :=
  fun a b =>
    match a, b with
    | .ok x, .ok y =>
      if h : x = y then .isTrue (by rw [h]) else .isFalse (by simp [h])
    | .error x, .error y =>
      if h : x = y then .isTrue (by rw [h]) else .isFalse (by simp [h])
    | .ok _, .error _ => .isFalse (by simp)
    | .error _, .ok _ => .isFalse (by simp)

/-- One decoded audio fragment, as handed from `handleAudioResponse` to the
assembler task over `AudioChannel` (`audiotypes.AudioChunk`).  The
`outputIndex` and `contentIndex` fields are carried but never read by
`handleAudioChunk`. -/
structure AudioChunk where
  responseID : String
  itemID : String
  outputIndex : Int
  contentIndex : Int
  data : List Nat
deriving DecidableEq, Repr

/-- The composite stream key `fmt.Sprintf("%s_%s", responseID, itemID)`
computed identically in `handleAudioChunk` and `saveAudioOnly`. -/
def mkAudioKey (responseID itemID : String) : String :=
  responseID ++ "_" ++ itemID

/-- The composite key of a fragment. -/
def chunkKey (c : AudioChunk) : String := mkAudioKey c.responseID c.itemID

/-- The audio accumulation map `c.AudioBuffer`: composite keys to accumulated
bytes.  `none` models both an absent key and a nil `*AudioMessage`, the two
cases the source treats alike. -/
abbrev AudioBufferMap : Type := String → Option (List Nat)

/-- The map before any fragment arrived. -/
def emptyAudioBuffer : AudioBufferMap := fun _ => none

/-- Shallow embedding of `handleAudioChunk` (mainaudio.go, lines 115-132):
under the buffer lock, create an empty buffer for the fragment's key if none
exists, then append the fragment's bytes to it. -/
def handleAudioChunk (buf : AudioBufferMap) (chunk : AudioChunk) : AudioBufferMap :=
  fun k =>
    if k = chunkKey chunk then some ((buf (chunkKey chunk)).getD [] ++ chunk.data)
    else buf k

/-- Error cases of `saveAudioOnly`, one constructor per `fmt.Errorf` in the
source (missing buffer, empty buffer, `os.Create` failure, `writeWAVHeader`
failure, `file.Write` failure). -/
inductive SaveError where
  | noAudioData (key : String)
  | emptyAudioData (key : String)
  | createFile
  | writeHeader
  | writeData
deriving DecidableEq, Repr

/-- Shallow embedding of `saveAudioOnly` (mainaudio.go, lines 290-326).
File-system outcomes are explicit oracles: `createOk` stands for
`os.Create`, `headerOk` for the `binary.Write` calls of `writeWAVHeader`,
`dataOk` for the `file.Write` of the samples.  On success the drained bytes
are returned (the file on disk holds `encodeWAV` of them) and the map entry
is deleted; every error path leaves the map untouched, exactly as in the
source, where the `delete` only follows a fully successful write. -/
def saveAudioOnly (createOk headerOk dataOk : Bool) (buf : AudioBufferMap)
    (responseID itemID : String) : Except SaveError (List Nat) × AudioBufferMap :=
  let key := mkAudioKey responseID itemID
  match buf key with
  | none => (.error (.noAudioData key), buf)
  | some audioData =>
    if audioData = [] then (.error (.emptyAudioData key), buf)
    else if createOk = false then (.error .createFile, buf)
    else if headerOk = false then (.error .writeHeader, buf)
    else if dataOk = false then (.error .writeData, buf)
    else (.ok audioData, fun k => if k = key then none else buf k)

/-- Concatenation, in delivery order, of the payloads of the fragments that
carry the given composite key. -/
def selectPayloads (key : String) (chunks : List AudioChunk) : List Nat :=
  ((chunks.filter fun c => chunkKey c == key).map AudioChunk.data).flatten

/-- Digit test used when reasoning about Go's number parsing: the characters
'0' through '9'. -/
def isDigitChar (c : Char) : Bool := 48 ≤ c.toNat && c.toNat ≤ 57

/-- Value of a decimal digit string, most significant digit first,
accumulated one digit at a time as in strconv's parse loop. -/
def digitsVal (l : List Char) : Nat :=
  l.foldl (fun acc c => acc * 10 + (c.toNat - 48)) 0

/-- Error kinds of `strconv.Atoi`: ErrSyntax for malformed input, ErrRange
for values outside the platform int range. -/
inductive AtoiError where
  | syntaxErr
  | rangeErr
deriving DecidableEq, Repr

/-- Optional leading sign of a Go integer literal. -/
def splitSign (s : List Char) : Bool × List Char :=
  match s with
  | c :: rest =>
    if c = '-' then (true, rest) else if c = '+' then (false, rest) else (false, s)
  | [] => (false, s)

/-- Shallow embedding of `strconv.Atoi` on a 64-bit platform: an optional
sign, then one or more decimal digits, with the resulting value required to
fit in int64.  Go reports a clamped value together with ErrRange on
overflow; `handleAudioResponse` only tests `err != nil`, so the clamped
value is irrelevant and an `Except` suffices. -/
def atoi (s : List Char) : Except AtoiError Int :=
  let p := splitSign s
  if p.2 = [] then .error .syntaxErr
  else if p.2.all isDigitChar = false then .error .syntaxErr
  else
    let v : Int := if p.1 then -(digitsVal p.2 : Int) else (digitsVal p.2 : Int)
    if v < -(2 ^ 63) ∨ (2 ^ 63 - 1 : Int) < v then .error .rangeErr
    else .ok v

/-- The standard base64 alphabet of Go's `base64.StdEncoding`. -/
def base64Alphabet : List Char :=
  "ABCDEFGHIJKLMNOPQRSTUVWXYZabcdefghijklmnopqrstuvwxyz0123456789+/".data

/-- Alphabet character of a six-bit group. -/
def b64Char (n : Nat) : Char := base64Alphabet.getD n 'A'

/-- Six-bit value of an alphabet character; `none` for characters outside
the alphabet, '=' included. -/
def b64Index? (c : Char) : Option Nat := base64Alphabet.findIdx? (· == c)

/-- Shallow embedding of `base64.StdEncoding.EncodeToString` on byte lists:
each group of three bytes becomes four alphabet characters; a final group of
one or two bytes is closed with '=' padding. -/
def base64Encode : List Nat → List Char
  | a :: b :: c :: rest =>
    b64Char (a / 4) :: b64Char (a % 4 * 16 + b / 16) :: b64Char (b % 16 * 4 + c / 64) ::
      b64Char (c % 64) :: base64Encode rest
  | [a, b] => [b64Char (a / 4), b64Char (a % 4 * 16 + b / 16), b64Char (b % 16 * 4), '=']
  | [a] => [b64Char (a / 4), b64Char (a % 4 * 16), '=', '=']
  | [] => []

/-- Shallow embedding of `base64.StdEncoding.DecodeString`: four-character
quanta; '=' padding only in the final quantum ("==" closes a one-byte group,
"=" a two-byte group); any other shape or a non-alphabet character is a
decode error (`none`). -/
def base64Decode : List Char → Option (List Nat)
  | [] => some []
  | w :: x :: y :: z :: rest =>
    if y = '=' ∧ z = '=' ∧ rest = [] then
      match b64Index? w, b64Index? x with
      | some a, some b => some [a * 4 + b / 16]
      | _, _ => none
    else if z = '=' ∧ rest = [] then
      match b64Index? w, b64Index? x, b64Index? y with
      | some a, some b, some c => some [a * 4 + b / 16, b % 16 * 16 + c / 4]
      | _, _, _ => none
    else
      match b64Index? w, b64Index? x, b64Index? y, b64Index? z, base64Decode rest with
      | some a, some b, some c, some d, some tail =>
        some ((a * 4 + b / 16) :: (b % 16 * 16 + c / 4) :: (c % 4 * 64 + d) :: tail)
      | _, _, _, _, _ => none
  | _ => none

/-- Outcome of the payload-decoding step of `handleAudioResponse`: a decoded
payload, the "parse audio size" error return, the "decode audio data" error
return, or a runtime panic (Go's `make` applied to a negative length). -/
inductive DeltaResult where
  | ok (payload : List Nat)
  | parseErr
  | decodeErr
  | panicked
deriving DecidableEq, Repr

/-- Shallow embedding of `strings.TrimPrefix`. -/
def trimPrefixList (s p : List Char) : List Char :=
  if p.isPrefixOf s then s.drop p.length else s

/-- Shallow embedding of `strings.TrimSuffix`. -/
def trimSuffixList (s suf : List Char) : List Char :=
  if suf.isSuffixOf s then s.take (s.length - suf.length) else s

/-- Opening text of the trimmed-audio sentinel. -/
def sentinelOpen : List Char := "[trimmed: ".data

/-- Closing text of the trimmed-audio sentinel. -/
def sentinelClose : List Char := " bytes]".data

/-- Shallow embedding of the payload decoding of `handleAudioResponse`
(mainaudio.go, lines 149-166): a delta bracketed by the trim sentinel has
its middle parsed by `strconv.Atoi` and is replaced by that many zero bytes
— where `make([]byte, size)` panics if Atoi returned a negative value — and
any other delta is base64 decoded. -/
def processDelta (delta : List Char) : DeltaResult :=
  if sentinelOpen.isPrefixOf delta && sentinelClose.isSuffixOf delta then
    match atoi (trimSuffixList (trimPrefixList delta sentinelOpen) sentinelClose) with
    | .error _ => .parseErr
    | .ok size => if size < 0 then .panicked else .ok (List.replicate size.toNat 0)
  else
    match base64Decode delta with
    | none => .decodeErr
    | some bytes => .ok bytes

/-- Dispatch path of one `response.audio.delta` frame: `handleAudioResponse`
decodes the payload and, when decoding succeeds, hands the fragment over
`AudioChannel` to the assembler task, which appends it via
`handleAudioChunk`; on an error return or a panic the buffer is untouched. -/
def deliverDelta (buf : AudioBufferMap) (responseID itemID : String)
    (outputIndex contentIndex : Int) (delta : List Char) :
    AudioBufferMap × DeltaResult :=
  match processDelta delta with
  | .ok payload =>
    (handleAudioChunk buf ⟨responseID, itemID, outputIndex, contentIndex, payload⟩,
     .ok payload)
  | r => (buf, r)

/-- The `AudioChunkConfig` struct of mainaudio.go. -/
structure AudioChunkConfig where
  chunkSize : Nat
  chunkDurationMs : Nat
deriving DecidableEq, Repr

/-- Shallow embedding of `DefaultAudioChunkConfig` (mainaudio.go, lines
84-93): 16 KiB chunks, with the duration estimate derived from the fixed
24000 Hz 16-bit mono rate. -/
def DefaultAudioChunkConfig : AudioChunkConfig :=
  let chunkSize := 16 * 1024
  let bytesPerSecond := 24000 * 2
  let durationMs := chunkSize * 1000 / bytesPerSecond
  { chunkSize := chunkSize, chunkDurationMs := durationMs }

/-- The chunk size `sendAudioMessage` reads with. -/
def audioChunkSize : Nat := DefaultAudioChunkConfig.chunkSize

/-- The `MaxRetries` of `DefaultConfig` (mainaudio.go, lines 394-404). -/
def clientMaxRetries : Nat := 3

/-- Outbound events written by `sendAudioMessage`, in emission order.  The
append events carry their `event_id` string and base64 audio payload. -/
inductive OutEvent where
  | conversationItemCreate
  | inputAudioBufferAppend (eventId : String) (audio : List Char)
  | inputAudioBufferCommit (eventId : String)
  | responseCreate
deriving DecidableEq, Repr

/-- Errors returned by `sendAudioMessage`, one constructor per `fmt.Errorf`
wrap on its paths (the open/stat oracle steps are not modelled: the input is
already the file's bytes). -/
inductive SendError where
  | invalidFormat (e : WAVError)
  | writeConversationItem
  | writeAudioChunk
  | writeAudioCommit
  | writeResponseCreate
deriving DecidableEq, Repr

/-- The `event_id` of the cnt-th append event, `fmt.Sprintf("evt_audio_%d", chunkCount)`. -/
def appendEventId (cnt : Nat) : String := "evt_audio_" ++ Nat.repr cnt

/-- The `event_id` of the commit event, `fmt.Sprintf("evt_commit_%d", chunkCount)`. -/
def commitEventId (cnt : Nat) : String := "evt_commit_" ++ Nat.repr cnt

/-- One pass of `sendAudioMessage`'s read/append loop, fuelled by the
remaining byte count for structural termination (an `os.File` read returns
`min(chunkSize, remaining)` bytes, and the read at end-of-file reports
`io.EOF` with 0 bytes, upon which the commit event is sent).  `ok` is the
per-WriteJSON-call transport oracle, `callIdx` the index of the next
WriteJSON call of this upload, `cnt` the chunks sent so far.  Returns the
successfully sent events, the next call index, and the error of the first
failed write, if any; the fuel-exhausted arm is dead for fuel at or above
the data length. -/
def sendAudioChunkLoop (ok : Nat → Bool) :
    Nat → Nat → Nat → List Nat → List OutEvent × Nat × Option SendError
  | _, callIdx, cnt, [] =>
    if ok callIdx then
      ([.inputAudioBufferCommit (commitEventId cnt)], callIdx + 1, none)
    else ([], callIdx, some .writeAudioCommit)
  | 0, callIdx, _, _ :: _ => ([], callIdx, none)
  | fuel + 1, callIdx, cnt, d :: ds =>
    if ok callIdx then
      let r := sendAudioChunkLoop ok fuel (callIdx + 1) (cnt + 1)
        ((d :: ds).drop audioChunkSize)
      (.inputAudioBufferAppend (appendEventId (cnt + 1))
          (base64Encode ((d :: ds).take audioChunkSize)) :: r.1, r.2)
    else ([], callIdx, some .writeAudioChunk)

/-- The post-validation body of `sendAudioMessage`, applied to the raw audio
bytes (the file minus its 44-byte header, which the source skips with
`file.Seek(44, 0)`): the `conversation.item.create` write (call 0), the
read/append loop, and the final `response.create` write. -/
def sendAudioBody (ok : Nat → Bool) (data : List Nat) :
    List OutEvent × Option SendError :=
  if ok 0 then
    let r := sendAudioChunkLoop ok data.length 1 0 data
    match r.2.2 with
    | some err => (.conversationItemCreate :: r.1, some err)
    | none =>
      if ok r.2.1 then (.conversationItemCreate :: (r.1 ++ [.responseCreate]), none)
      else (.conversationItemCreate :: r.1, some .writeResponseCreate)
  else ([], some .writeConversationItem)

/-- Shallow embedding of `sendAudioMessage` (mainaudio.go, lines 513-641) on
the file's bytes, with the transport writes driven by the oracle `ok`: call
0 is the `conversation.item.create` write, then one call per append, the
commit, and the final `response.create`.  Each write is a single direct
`c.Conn.WriteJSON`; the first failing write aborts the upload with the
originating error. -/
def sendAudioMessage (ok : Nat → Bool) (fileBytes : List Nat) :
    List OutEvent × Option SendError :=
  match validateWAVFormat fileBytes with
  | .error e => ([], some (.invalidFormat e))
  | .ok _ => sendAudioBody ok (fileBytes.drop 44)

/-- The 16 KiB chunking of a byte list, fuelled for structural termination;
`chunksOf` instantiates the fuel with the length. -/
def chunksOfAux : Nat → List Nat → List (List Nat)
  | _, [] => []
  | 0, _ :: _ => []
  | fuel + 1, d :: ds =>
    (d :: ds).take audioChunkSize :: chunksOfAux fuel ((d :: ds).drop audioChunkSize)

/-- The sequence of chunks `sendAudioMessage` reads from the raw audio. -/
def chunksOf (data : List Nat) : List (List Nat) := chunksOfAux data.length data

/-- Append events for a chunk list, counting chunks from `cnt`: the k-th
chunk carries its base64 payload under the strictly increasing event id
`evt_audio_(cnt+k+1)`. -/
def appendEvents (cnt : Nat) : List (List Nat) → List OutEvent
  | [] => []
  | ch :: rest =>
    .inputAudioBufferAppend (appendEventId (cnt + 1)) (base64Encode ch)
      :: appendEvents (cnt + 1) rest

/-- The full event trace of a successful upload of raw bytes `pcm`. -/
def fullUploadTrace (pcm : List Nat) : List OutEvent :=
  .conversationItemCreate
    :: (appendEvents 0 (chunksOf pcm)
      ++ [.inputAudioBufferCommit (commitEventId (chunksOf pcm).length), .responseCreate])

/-- Shallow embedding of `sendWithRetry` (maingo.go, lines 366-380): up to
`maxRetries` write attempts, consuming one oracle index per attempt; returns
the next call index and whether some attempt succeeded.  (The linear
`attempt * 1 second` backoff and deadline refresh have no observable effect
in this model.) -/
def sendWithRetry (ok : Nat → Bool) : Nat → Nat → Nat × Bool
  | 0, callIdx => (callIdx, false)
  | n + 1, callIdx =>
    if ok callIdx then (callIdx + 1, true) else sendWithRetry ok n (callIdx + 1)

/-- Modelled from the spec: the upload loop as the spec's framer section
describes it, with every write going through the Transport Session's
`sendWithRetry` (`MaxRetries` = 3) instead of a single direct write.  Used
only to compare the source's behaviour against the claimed one. -/
def sendAudioChunkLoopRetry (ok : Nat → Bool) :
    Nat → Nat → Nat → List Nat → List OutEvent × Nat × Option SendError
  | _, callIdx, cnt, [] =>
    let r := sendWithRetry ok clientMaxRetries callIdx
    if r.2 then ([.inputAudioBufferCommit (commitEventId cnt)], r.1, none)
    else ([], r.1, some .writeAudioCommit)
  | 0, callIdx, _, _ :: _ => ([], callIdx, none)
  | fuel + 1, callIdx, cnt, d :: ds =>
    let r := sendWithRetry ok clientMaxRetries callIdx
    if r.2 then
      let rest := sendAudioChunkLoopRetry ok fuel r.1 (cnt + 1) ((d :: ds).drop audioChunkSize)
      (.inputAudioBufferAppend (appendEventId (cnt + 1))
          (base64Encode ((d :: ds).take audioChunkSize)) :: rest.1, rest.2)
    else ([], r.1, some .writeAudioChunk)

/-- Modelled from the spec: `sendAudioMessage` as the spec claims it
behaves, every send (conversation item, chunk appends, commit, response
request) going through `sendWithRetry`. -/
def sendAudioMessageRetry (ok : Nat → Bool) (fileBytes : List Nat) :
    List OutEvent × Option SendError :=
  match validateWAVFormat fileBytes with
  | .error e => ([], some (.invalidFormat e))
  | .ok _ =>
    let r0 := sendWithRetry ok clientMaxRetries 0
    if r0.2 then
      let data := fileBytes.drop 44
      let r := sendAudioChunkLoopRetry ok data.length r0.1 0 data
      match r.2.2 with
      | some err => (.conversationItemCreate :: r.1, some err)
      | none =>
        let r1 := sendWithRetry ok clientMaxRetries r.2.1
        if r1.2 then (.conversationItemCreate :: (r.1 ++ [.responseCreate]), none)
        else (.conversationItemCreate :: r.1, some .writeResponseCreate)
    else ([], some .writeConversationItem)

/-- Classification of a failed `c.Conn.ReadMessage` in the receive loop: a
gorilla/websocket `*CloseError` carrying its close code, a `net.Error` whose
`Timeout()` is true, or any other read error (e.g. a connection reset that
is not delivered as a close frame). -/
inductive ReadError where
  | closeError (code : Nat)
  | timeout
  | other
deriving DecidableEq, Repr

/-- What the receive loop does next after a failed read. -/
inductive LoopAction where
  | exitLoop
  | retryRead
  | shutdownAndExit
deriving DecidableEq, Repr

/-- Shallow embedding of the error branch of `receiveRoutine` (mainaudio.go,
lines 198-211), in source order: `IsCloseError(err, CloseNormalClosure,
CloseGoingAway)` (codes 1000 and 1001) returns quietly; a `net.Error`
timeout re-issues the read; otherwise the error is logged and counted, and
only `IsUnexpectedCloseError` — a `*CloseError` with any other code —
triggers `c.shutdown()` and exits; every remaining error falls through to
`continue`. -/
def classifyReadError (e : ReadError) : LoopAction :=
  match e with
  | .closeError code =>
    if code = 1000 ∨ code = 1001 then .exitLoop
    else .shutdownAndExit
  | .timeout => .retryRead
  | .other => .retryRead

/-- The steps of the close sequence inside `shutdown`'s `sync.Once` body, in
source order: close the `Done` signal, close the websocket (best-effort
close frame, then `Conn.Close`), close the logger, wait on the WaitGroup
bounded by `ShutdownTimeout`, close the three internal channels. -/
inductive ShutdownAction where
  | closeDone
  | closeConn
  | closeLogger
  | waitTasks
  | closeChannels
deriving DecidableEq, Repr

/-- Client state observable by shutdown: whether the `sync.Once` has already
fired, and the close actions performed so far. -/
structure ShutdownState where
  shutdownStarted : Bool
  trace : List ShutdownAction
deriving DecidableEq, Repr

/-- The close sequence of `shutdown` (mainaudio.go, lines 355-393). -/
def closeSequence : List ShutdownAction :=
  [.closeDone, .closeConn, .closeLogger, .waitTasks, .closeChannels]

/-- Shallow embedding of `shutdown` (mainaudio.go, lines 355-393): the
`sync.Once` guard serialises concurrent callers — whoever enters first runs
the close sequence, every later invocation returns without re-running it.
The `ShutdownTimeout` bound on the WaitGroup wait is represented by the
single `waitTasks` step. -/
def shutdown (st : ShutdownState) : ShutdownState :=
  if st.shutdownStarted then st
  else { shutdownStarted := true, trace := st.trace ++ closeSequence }

/- ------------------------------------------------------------------ -/
/- Theorems                                                            -/
/- ------------------------------------------------------------------ -/

theorem foldl_handleAudioChunk_lookup (chunks : List AudioChunk)
    (buf : AudioBufferMap) (key : String) :
    (chunks.foldl handleAudioChunk buf) key
      = if (buf key).isSome ∨ chunks.any (fun c => chunkKey c == key) then
          some ((buf key).getD [] ++ selectPayloads key chunks)
        else none := by
  induction chunks generalizing buf with
  | nil => cases h : buf key <;> simp [selectPayloads, h]
  | cons c cs ih =>
    simp only [List.foldl_cons, List.any_cons]
    rw [ih]
    by_cases hk : chunkKey c = key
    · have h1 : handleAudioChunk buf c key = some ((buf key).getD [] ++ c.data) := by
        simp [handleAudioChunk, hk]
      have h2 : selectPayloads key (c :: cs) = c.data ++ selectPayloads key cs := by
        simp [selectPayloads, List.filter_cons, hk]
      simp [h1, h2, hk, List.append_assoc]
    · have h1 : handleAudioChunk buf c key = buf key := by
        simp [handleAudioChunk, Ne.symm hk]
      have h2 : selectPayloads key (c :: cs) = selectPayloads key cs := by
        simp [selectPayloads, List.filter_cons, hk]
      simp [h1, h2, hk]

theorem selectPayloads_ne_nil_any {key : String} {chunks : List AudioChunk}
    (h : selectPayloads key chunks ≠ []) :
    chunks.any (fun c => chunkKey c == key) = true := by
  by_contra hany
  have hfil : chunks.filter (fun c => chunkKey c == key) = [] := by
    rw [List.filter_eq_nil_iff]
    intro a ha
    have := (List.any_eq_false.mp (Bool.eq_false_iff.mpr hany)) a ha
    simpa using this
  simp [selectPayloads, hfil] at h

theorem saveAudioOnly_drain {buf : AudioBufferMap} {r i : String} {bs : List Nat}
    (hl : buf (mkAudioKey r i) = some bs) (hne : bs ≠ []) :
    (saveAudioOnly true true true buf r i).1 = .ok bs
      ∧ (saveAudioOnly true true true buf r i).2
          = fun k => if k = mkAudioKey r i then none else buf k := by
  simp [saveAudioOnly, hl, hne]

/-- Claim C1 (amended): fragments appended in delivery order through
`handleAudioChunk` drain through `saveAudioOnly` to the exact concatenation
of their payloads in delivery order; and two streams whose composite keys
`responseID ++ "_" ++ itemID` differ drain independently, each yielding only
its own bytes.  Amendment: the source keys buffers by this underscore-joined
string, which can collide for distinct `(responseID, itemID)` pairs, so the
no-cross-contamination part holds for distinct composite keys rather than
for arbitrary distinct pairs (see the counterexample). -/
theorem claim_C1 :
    (∀ (chunks : List AudioChunk) (r i : String),
      (∀ c ∈ chunks, c.responseID = r ∧ c.itemID = i) →
      (chunks.map AudioChunk.data).flatten ≠ [] →
      (saveAudioOnly true true true (chunks.foldl handleAudioChunk emptyAudioBuffer) r i).1
        = .ok ((chunks.map AudioChunk.data).flatten))
    ∧ (∀ (chunks : List AudioChunk) (r1 i1 r2 i2 : String),
      mkAudioKey r1 i1 ≠ mkAudioKey r2 i2 →
      selectPayloads (mkAudioKey r1 i1) chunks ≠ [] →
      selectPayloads (mkAudioKey r2 i2) chunks ≠ [] →
      (saveAudioOnly true true true (chunks.foldl handleAudioChunk emptyAudioBuffer) r1 i1).1
          = .ok (selectPayloads (mkAudioKey r1 i1) chunks)
        ∧ (saveAudioOnly true true true
            (saveAudioOnly true true true (chunks.foldl handleAudioChunk emptyAudioBuffer) r1 i1).2
            r2 i2).1
          = .ok (selectPayloads (mkAudioKey r2 i2) chunks)) := by
  have hlook : ∀ (chunks : List AudioChunk) (key : String),
      selectPayloads key chunks ≠ [] →
      (chunks.foldl handleAudioChunk emptyAudioBuffer) key
        = some (selectPayloads key chunks) := by
    intro chunks key hne
    rw [foldl_handleAudioChunk_lookup]
    simp [emptyAudioBuffer, selectPayloads_ne_nil_any hne]
  constructor
  · intro chunks r i hall hne
    have hsel : selectPayloads (mkAudioKey r i) chunks
        = (chunks.map AudioChunk.data).flatten := by
      unfold selectPayloads
      rw [List.filter_eq_self.mpr]
      intro c hc
      have := hall c hc
      simp [chunkKey, this.1, this.2]
    have := saveAudioOnly_drain (hlook chunks (mkAudioKey r i) (hsel ▸ hne)) (hsel ▸ hne)
    rw [this.1, hsel]
  · intro chunks r1 i1 r2 i2 hkeys h1 h2
    have d1 := saveAudioOnly_drain (hlook chunks (mkAudioKey r1 i1) h1) h1
    have hl2 : (saveAudioOnly true true true
        (chunks.foldl handleAudioChunk emptyAudioBuffer) r1 i1).2 (mkAudioKey r2 i2)
        = some (selectPayloads (mkAudioKey r2 i2) chunks) := by
      rw [d1.2]
      simp [Ne.symm hkeys, hlook chunks (mkAudioKey r2 i2) h2]
    have d2 := saveAudioOnly_drain hl2 h2
    exact ⟨d1.1, d2.1⟩

/-- Witness for claim C1: a single stream of two fragments drains to their
concatenation, and the spec's scenario of two interleaved streams keyed
("r1","i1") and ("r2","i2") with three 100-byte fragments each drains to 300
bytes per key with no cross-contamination. -/
theorem claim_C1_witness :
    (saveAudioOnly true true true
        ([⟨"r", "i", 0, 0, [1, 2]⟩, ⟨"r", "i", 0, 0, [3]⟩].foldl handleAudioChunk
          emptyAudioBuffer) "r" "i").1
      = .ok (([(⟨"r", "i", 0, 0, [1, 2]⟩ : AudioChunk),
               ⟨"r", "i", 0, 0, [3]⟩].map AudioChunk.data).flatten)
    ∧ ((saveAudioOnly true true true
        (([⟨"r1", "i1", 0, 0, List.replicate 100 1⟩, ⟨"r2", "i2", 0, 0, List.replicate 100 2⟩,
           ⟨"r1", "i1", 0, 0, List.replicate 100 3⟩, ⟨"r2", "i2", 0, 0, List.replicate 100 4⟩,
           ⟨"r1", "i1", 0, 0, List.replicate 100 5⟩, ⟨"r2", "i2", 0, 0, List.replicate 100 6⟩]
          : List AudioChunk).foldl handleAudioChunk emptyAudioBuffer) "r1" "i1").1
        = .ok (selectPayloads (mkAudioKey "r1" "i1")
            [⟨"r1", "i1", 0, 0, List.replicate 100 1⟩, ⟨"r2", "i2", 0, 0, List.replicate 100 2⟩,
             ⟨"r1", "i1", 0, 0, List.replicate 100 3⟩, ⟨"r2", "i2", 0, 0, List.replicate 100 4⟩,
             ⟨"r1", "i1", 0, 0, List.replicate 100 5⟩, ⟨"r2", "i2", 0, 0, List.replicate 100 6⟩])
      ∧ (saveAudioOnly true true true
          (saveAudioOnly true true true
            (([⟨"r1", "i1", 0, 0, List.replicate 100 1⟩, ⟨"r2", "i2", 0, 0, List.replicate 100 2⟩,
               ⟨"r1", "i1", 0, 0, List.replicate 100 3⟩, ⟨"r2", "i2", 0, 0, List.replicate 100 4⟩,
               ⟨"r1", "i1", 0, 0, List.replicate 100 5⟩, ⟨"r2", "i2", 0, 0, List.replicate 100 6⟩]
              : List AudioChunk).foldl handleAudioChunk emptyAudioBuffer) "r1" "i1").2
          "r2" "i2").1
        = .ok (selectPayloads (mkAudioKey "r2" "i2")
            [⟨"r1", "i1", 0, 0, List.replicate 100 1⟩, ⟨"r2", "i2", 0, 0, List.replicate 100 2⟩,
             ⟨"r1", "i1", 0, 0, List.replicate 100 3⟩, ⟨"r2", "i2", 0, 0, List.replicate 100 4⟩,
             ⟨"r1", "i1", 0, 0, List.replicate 100 5⟩, ⟨"r2", "i2", 0, 0, List.replicate 100 6⟩])) :=
  ⟨claim_C1.1 [⟨"r", "i", 0, 0, [1, 2]⟩, ⟨"r", "i", 0, 0, [3]⟩] "r" "i"
      (by decide) (by decide),
   claim_C1.2
      [⟨"r1", "i1", 0, 0, List.replicate 100 1⟩, ⟨"r2", "i2", 0, 0, List.replicate 100 2⟩,
       ⟨"r1", "i1", 0, 0, List.replicate 100 3⟩, ⟨"r2", "i2", 0, 0, List.replicate 100 4⟩,
       ⟨"r1", "i1", 0, 0, List.replicate 100 5⟩, ⟨"r2", "i2", 0, 0, List.replicate 100 6⟩]
      "r1" "i1" "r2" "i2" (by decide) (by decide) (by decide)⟩

/-- Counterexample to claim C1 as stated: ("a_b","c") and ("a","b_c") are
distinct stream keys, yet draining ("a_b","c") after one interleaved
fragment of each returns the other stream's byte as well, because both pairs
collide on the composite map key "a_b_c". -/
theorem claim_C1_counterexample :
    ¬ (("a_b" : String) = "a" ∧ ("c" : String) = "b_c")
    ∧ (saveAudioOnly true true true
        ([⟨"a_b", "c", 0, 0, [1]⟩, ⟨"a", "b_c", 0, 0, [2]⟩].foldl handleAudioChunk
          emptyAudioBuffer) "a_b" "c").1
      = .ok [1, 2] := by
  constructor
  · decide
  · decide

/-- Claim C7 (amended): a persistence failure in `saveAudioOnly` (file
create, header write or data write) returns an error and leaves the audio
accumulation map exactly as it was — the entry for the key is not cleared;
the entry is removed precisely when the save succeeds. -/
theorem claim_C7 :
    (∀ (createOk headerOk dataOk : Bool) (buf : AudioBufferMap) (r i : String) (e : SaveError),
      (saveAudioOnly createOk headerOk dataOk buf r i).1 = .error e →
      (saveAudioOnly createOk headerOk dataOk buf r i).2 = buf)
    ∧ (∀ (createOk headerOk dataOk : Bool) (buf : AudioBufferMap) (r i : String) (bs : List Nat),
      (saveAudioOnly createOk headerOk dataOk buf r i).1 = .ok bs →
      (saveAudioOnly createOk headerOk dataOk buf r i).2 (mkAudioKey r i) = none) := by
  constructor
  · intro createOk headerOk dataOk buf r i e he
    cases hb : buf (mkAudioKey r i) with
    | none => simp [saveAudioOnly, hb]
    | some audioData =>
      simp only [saveAudioOnly, hb] at he ⊢
      split_ifs at he ⊢ <;> simp_all
  · intro createOk headerOk dataOk buf r i bs hok
    cases hb : buf (mkAudioKey r i) with
    | none => simp [saveAudioOnly, hb] at hok
    | some audioData =>
      simp only [saveAudioOnly, hb] at hok ⊢
      split_ifs at hok ⊢
      simp_all

/-- Witness for claim C7: with one byte buffered under key "r_i", a failed
create leaves the map unchanged, and a successful save clears the entry. -/
theorem claim_C7_witness :
    (saveAudioOnly false true true
        ([AudioChunk.mk "r" "i" 0 0 [1]].foldl handleAudioChunk emptyAudioBuffer) "r" "i").2
      = [AudioChunk.mk "r" "i" 0 0 [1]].foldl handleAudioChunk emptyAudioBuffer
    ∧ (saveAudioOnly true true true
        ([AudioChunk.mk "r" "i" 0 0 [1]].foldl handleAudioChunk emptyAudioBuffer) "r" "i").2
        (mkAudioKey "r" "i") = none :=
  ⟨claim_C7.1 false true true
      ([AudioChunk.mk "r" "i" 0 0 [1]].foldl handleAudioChunk emptyAudioBuffer) "r" "i"
      .createFile (by decide),
   claim_C7.2 true true true
      ([AudioChunk.mk "r" "i" 0 0 [1]].foldl handleAudioChunk emptyAudioBuffer) "r" "i"
      [1] (by decide)⟩

/-- Counterexample to claim C7 as stated: with the buffer holding one byte
for key "r_i", a failing file create (and likewise a failing data write)
returns a persistence error while the map still holds the entry — the source
deletes the entry only after a fully successful save. -/
theorem claim_C7_counterexample :
    (saveAudioOnly false true true
        ([AudioChunk.mk "r" "i" 0 0 [1]].foldl handleAudioChunk emptyAudioBuffer) "r" "i").1
      = .error .createFile
    ∧ (saveAudioOnly false true true
        ([AudioChunk.mk "r" "i" 0 0 [1]].foldl handleAudioChunk emptyAudioBuffer) "r" "i").2
        (mkAudioKey "r" "i") = some [1]
    ∧ (saveAudioOnly true true false
        ([AudioChunk.mk "r" "i" 0 0 [1]].foldl handleAudioChunk emptyAudioBuffer) "r" "i").1
      = .error .writeData
    ∧ (saveAudioOnly true true false
        ([AudioChunk.mk "r" "i" 0 0 [1]].foldl handleAudioChunk emptyAudioBuffer) "r" "i").2
        (mkAudioKey "r" "i") = some [1] := by
  refine ⟨by decide, by decide, by decide, by decide⟩

theorem u32le_mod_add (n k : Nat) : u32le (n % 2 ^ 32 + k) = u32le (n + k) := by
  simp only [u32le, List.cons.injEq, and_true]
  omega

theorem u32le_mod (n : Nat) : u32le (n % 2 ^ 32) = u32le n := by
  simpa using u32le_mod_add n 0

theorem writeWAVHeader_length (d : Nat) : (writeWAVHeader d).length = 44 := by
  simp [writeWAVHeader, u32le, u16le]

/-- Claim C2: the container encoder deterministically produces the byte-exact
44-byte little-endian header of the spec ("RIFF", len+36, "WAVE", "fmt ",
subchunk size 16, PCM format 1, 1 channel, 24000 Hz, byte rate
sampleRate*channels*bitsPerSample/8 = 48000, block align 2, 16 bits per
sample, "data", len) followed by the raw samples, and the total output length
is `len pcm + 44`. -/
theorem claim_C2 (pcm : List Nat) :
    encodeWAV pcm = specWAVHeader pcm.length ++ pcm
      ∧ (specWAVHeader pcm.length).length = 44
      ∧ (encodeWAV pcm).length = pcm.length + 44 := by
  refine ⟨?_, ?_, ?_⟩
  · simp only [encodeWAV, specWAVHeader, writeWAVHeader]
    rw [u32le_mod_add, u32le_mod]
  · simp [specWAVHeader, u32le, u16le]
  · simp only [encodeWAV, List.length_append, writeWAVHeader_length]
    omega

theorem parseWAVHeader_writeWAVHeader (d : Nat) (rest : List Nat) :
    parseWAVHeader (writeWAVHeader d ++ rest) = some (goodWAVHeader d) := by
  simp only [writeWAVHeader, u32le, u16le, List.cons_append, List.nil_append,
    parseWAVHeader, goodWAVHeader, Option.some.injEq, WAVHeader.mk.injEq,
    parseU16, parseU32]
  norm_num
  omega

/-- Claim C4: every header produced by the container encoder passes the
outbound framer's validator, and corrupting exactly one of the four format
fields (audio-format code, channel count, sample rate, bits per sample) is
rejected with a rejection reason specific to that field; the four reasons are
pairwise distinct. -/
theorem claim_C4 :
    (∀ pcm : List Nat, validateWAVFormat (encodeWAV pcm) = .ok ())
    ∧ (∀ d v, v ≠ 1 →
        validateHeader (withAudioFormat (goodWAVHeader d) v) = .error (.notPCM v))
    ∧ (∀ d v, v ≠ 1 →
        validateHeader (withNumChannels (goodWAVHeader d) v) = .error (.notMono v))
    ∧ (∀ d v, v ≠ 24000 →
        validateHeader (withSampleRate (goodWAVHeader d) v) = .error (.wrongSampleRate v))
    ∧ (∀ d v, v ≠ 16 →
        validateHeader (withBitsPerSample (goodWAVHeader d) v) = .error (.notSixteenBit v))
    ∧ (∀ a b : Nat,
        WAVError.notPCM a ≠ WAVError.notMono b
        ∧ WAVError.notPCM a ≠ WAVError.wrongSampleRate b
        ∧ WAVError.notPCM a ≠ WAVError.notSixteenBit b
        ∧ WAVError.notMono a ≠ WAVError.wrongSampleRate b
        ∧ WAVError.notMono a ≠ WAVError.notSixteenBit b
        ∧ WAVError.wrongSampleRate a ≠ WAVError.notSixteenBit b) := by
  refine ⟨?_, ?_, ?_, ?_, ?_, ?_⟩
  · intro pcm
    rw [validateWAVFormat, encodeWAV, parseWAVHeader_writeWAVHeader]
    simp [validateHeader, goodWAVHeader]
  · intro d v hv
    simp [validateHeader, withAudioFormat, goodWAVHeader, hv]
  · intro d v hv
    simp [validateHeader, withNumChannels, goodWAVHeader, hv]
  · intro d v hv
    simp [validateHeader, withSampleRate, goodWAVHeader, hv]
  · intro d v hv
    simp [validateHeader, withBitsPerSample, goodWAVHeader, hv]
  · intro a b
    refine ⟨?_, ?_, ?_, ?_, ?_, ?_⟩ <;> simp

/-- Witness for claim C4 at concrete inputs. -/
theorem claim_C4_witness :
    validateWAVFormat (encodeWAV [1, 2]) = .ok ()
      ∧ validateHeader (withAudioFormat (goodWAVHeader 2) 7) = .error (.notPCM 7)
      ∧ validateHeader (withNumChannels (goodWAVHeader 2) 2) = .error (.notMono 2)
      ∧ validateHeader (withSampleRate (goodWAVHeader 2) 44100) = .error (.wrongSampleRate 44100)
      ∧ validateHeader (withBitsPerSample (goodWAVHeader 2) 8) = .error (.notSixteenBit 8) :=
  ⟨claim_C4.1 [1, 2],
   claim_C4.2.1 2 7 (by decide),
   claim_C4.2.2.1 2 2 (by decide),
   claim_C4.2.2.2.1 2 44100 (by decide),
   claim_C4.2.2.2.2.1 2 8 (by decide)⟩

theorem sentinel_trim (ds : List Char) :
    trimSuffixList (trimPrefixList (sentinelOpen ++ ds ++ sentinelClose) sentinelOpen)
        sentinelClose = ds := by
  have hpre : sentinelOpen.isPrefixOf (sentinelOpen ++ ds ++ sentinelClose) = true := by
    rw [List.isPrefixOf_iff_prefix, List.append_assoc]
    exact List.prefix_append _ _
  have htrim1 : trimPrefixList (sentinelOpen ++ ds ++ sentinelClose) sentinelOpen
      = ds ++ sentinelClose := by
    rw [trimPrefixList, if_pos hpre, List.append_assoc, List.drop_left]
  have hsuf : sentinelClose.isSuffixOf (ds ++ sentinelClose) = true := by
    rw [List.isSuffixOf_iff_suffix]
    exact List.suffix_append _ _
  rw [htrim1, trimSuffixList, if_pos hsuf]
  simp [List.take_left]

theorem atoi_digits (ds : List Char) (hne : ds ≠ []) (hdig : ds.all isDigitChar = true)
    (hlt : digitsVal ds < 2 ^ 63) : atoi ds = .ok (digitsVal ds) := by
  obtain ⟨c, cs, rfl⟩ : ∃ c cs, ds = c :: cs := by
    cases ds with
    | nil => exact absurd rfl hne
    | cons c cs => exact ⟨c, cs, rfl⟩
  have hd : isDigitChar c = true := by
    have := List.all_eq_true.mp hdig c (by simp)
    simpa using this
  have hminus : c ≠ '-' := by
    intro h
    rw [h] at hd
    simp [isDigitChar] at hd
  have hplus : c ≠ '+' := by
    intro h
    rw [h] at hd
    simp [isDigitChar] at hd
  have hsign : splitSign (c :: cs) = (false, c :: cs) := by
    simp [splitSign, hminus, hplus]
  rw [atoi, hsign]
  simp only [List.cons_ne_self, reduceCtorEq, if_false]
  rw [if_neg (by simp [hdig]), if_neg (by push_cast; omega)]

/-- Claim C3 (amended): a `response.audio.delta` frame whose delta is the
sentinel `"[trimmed: N bytes]"`, for a non-negative decimal digit string
denoting `N < 2 ^ 63` (so that `strconv.Atoi` accepts it on a 64-bit
platform), decodes to exactly `N` zero bytes, and the dispatch path appends
those `N` zero bytes to the buffer of the frame's stream key.  Amendment:
the bound `N ≤ 2 ^ 63 - 1`, forced by Atoi's int64 range error; allocation
limits of `make` are not modelled. -/
theorem claim_C3 (ds : List Char) (buf : AudioBufferMap) (r i : String)
    (oi ci : Int) (hne : ds ≠ []) (hdig : ds.all isDigitChar = true)
    (hlt : digitsVal ds < 2 ^ 63) :
    processDelta (sentinelOpen ++ ds ++ sentinelClose)
        = .ok (List.replicate (digitsVal ds) 0)
      ∧ (deliverDelta buf r i oi ci (sentinelOpen ++ ds ++ sentinelClose)).2
        = .ok (List.replicate (digitsVal ds) 0)
      ∧ (deliverDelta buf r i oi ci (sentinelOpen ++ ds ++ sentinelClose)).1 (mkAudioKey r i)
        = some ((buf (mkAudioKey r i)).getD [] ++ List.replicate (digitsVal ds) 0) := by
  have hpre : sentinelOpen.isPrefixOf (sentinelOpen ++ ds ++ sentinelClose) = true := by
    rw [List.isPrefixOf_iff_prefix, List.append_assoc]
    exact List.prefix_append _ _
  have hsuf : sentinelClose.isSuffixOf (sentinelOpen ++ ds ++ sentinelClose) = true := by
    rw [List.isSuffixOf_iff_suffix]
    exact List.suffix_append _ _
  have hproc : processDelta (sentinelOpen ++ ds ++ sentinelClose)
      = .ok (List.replicate (digitsVal ds) 0) := by
    rw [processDelta, if_pos (by rw [hpre, hsuf]; rfl), sentinel_trim,
      atoi_digits ds hne hdig hlt]
    simp
  refine ⟨hproc, ?_, ?_⟩
  · rw [deliverDelta, hproc]
  · rw [deliverDelta, hproc]
    simp [handleAudioChunk, chunkKey]

/-- Witness for claim C3 at the spec's concrete scenario N = 512. -/
theorem claim_C3_witness :
    processDelta (sentinelOpen ++ "512".data ++ sentinelClose)
        = .ok (List.replicate (digitsVal "512".data) 0)
      ∧ (deliverDelta emptyAudioBuffer "r" "i" 0 0
          (sentinelOpen ++ "512".data ++ sentinelClose)).2
        = .ok (List.replicate (digitsVal "512".data) 0)
      ∧ (deliverDelta emptyAudioBuffer "r" "i" 0 0
          (sentinelOpen ++ "512".data ++ sentinelClose)).1 (mkAudioKey "r" "i")
        = some ((emptyAudioBuffer (mkAudioKey "r" "i")).getD []
            ++ List.replicate (digitsVal "512".data) 0) :=
  claim_C3 "512".data emptyAudioBuffer "r" "i" 0 0 (by decide) (by decide) (by decide)

/-- Counterexample to claim C3 as stated: for the non-negative decimal
N = 9223372036854775808 = 2 ^ 63, `strconv.Atoi` reports a range error on
any Go platform, so `handleAudioResponse` returns the "parse audio size"
error instead of producing N zero bytes. -/
theorem claim_C3_counterexample :
    processDelta ("[trimmed: 9223372036854775808 bytes]".data) = .parseErr
      ∧ DeltaResult.parseErr ≠ .ok (List.replicate 9223372036854775808 0) :=
  ⟨by decide, fun h => nomatch h⟩

/-- Claim C10: the dispatcher's payload decoding is not total — on the
well-formed sentinel frame `"[trimmed: -1 bytes]"`, `strconv.Atoi` accepts
the negative number and `make([]byte, size)` is reached with a negative
length, a runtime panic rather than an error return. -/
theorem claim_C10 :
    processDelta ("[trimmed: -1 bytes]".data) = .panicked
      ∧ atoi ("-1".data) = .ok (-1) := by
  refine ⟨by decide, by decide⟩

theorem b64Index?_b64Char : ∀ s, s < 64 → b64Index? (b64Char s) = some s := by
  decide

theorem b64Char_ne_pad : ∀ s, s < 64 → b64Char s ≠ '=' := by
  decide

theorem base64_roundtrip :
    ∀ data : List Nat, (∀ b ∈ data, b < 256) →
      base64Decode (base64Encode data) = some data := by
  intro data
  induction data using base64Encode.induct with
  | case1 a b c rest ih =>
    intro h
    have ha : a < 256 := h a (by simp)
    have hb : b < 256 := h b (by simp)
    have hc : c < 256 := h c (by simp)
    have hy : b64Char (b % 16 * 4 + c / 64) ≠ '=' := b64Char_ne_pad _ (by omega)
    have hz : b64Char (c % 64) ≠ '=' := b64Char_ne_pad _ (by omega)
    have htail : base64Decode (base64Encode rest) = some rest := by
      refine ih ?_
      intro x hx
      exact h x (by simp [hx])
    have e1 : a / 4 * 4 + (a % 4 * 16 + b / 16) / 16 = a := by omega
    have e2 : (a % 4 * 16 + b / 16) % 16 * 16 + (b % 16 * 4 + c / 64) / 4 = b := by omega
    have e3 : (b % 16 * 4 + c / 64) % 4 * 64 + c % 64 = c := by omega
    rw [base64Encode, base64Decode]
    rw [if_neg (by simp [hy]), if_neg (by simp [hz])]
    rw [b64Index?_b64Char _ (by omega), b64Index?_b64Char _ (by omega),
      b64Index?_b64Char _ (by omega), b64Index?_b64Char _ (by omega), htail]
    simp [e1, e2, e3]
  | case2 a b =>
    intro h
    have ha : a < 256 := h a (by simp)
    have hb : b < 256 := h b (by simp)
    have hy : b64Char (b % 16 * 4) ≠ '=' := b64Char_ne_pad _ (by omega)
    have e1 : a / 4 * 4 + (a % 4 * 16 + b / 16) / 16 = a := by omega
    have e2 : (a % 4 * 16 + b / 16) % 16 * 16 + b % 16 * 4 / 4 = b := by omega
    rw [base64Encode, base64Decode]
    rw [if_neg (by simp [hy]), if_pos ⟨rfl, rfl⟩]
    rw [b64Index?_b64Char _ (by omega), b64Index?_b64Char _ (by omega),
      b64Index?_b64Char _ (by omega)]
    simp only [Option.some.injEq, List.cons.injEq, and_true]
    constructor <;> omega
  | case3 a =>
    intro h
    have ha : a < 256 := h a (by simp)
    rw [base64Encode, base64Decode]
    rw [if_pos ⟨rfl, rfl, rfl⟩]
    rw [b64Index?_b64Char _ (by omega), b64Index?_b64Char _ (by omega)]
    simp only [Option.some.injEq, List.cons.injEq, and_true]
    omega
  | case4 =>
    intro _
    rfl

theorem audioChunkSize_eq : audioChunkSize = 16384 := rfl

theorem chunksOfAux_fuelFree :
    ∀ f1 f2 (data : List Nat), data.length ≤ f1 → data.length ≤ f2 →
      chunksOfAux f1 data = chunksOfAux f2 data := by
  intro f1
  induction f1 with
  | zero =>
    intro f2 data h1 _
    have : data = [] := List.eq_nil_of_length_eq_zero (Nat.le_zero.mp h1)
    subst this
    cases f2 <;> rfl
  | succ f ih =>
    intro f2 data h1 h2
    cases data with
    | nil => cases f2 <;> rfl
    | cons d ds =>
      cases f2 with
      | zero => simp at h2
      | succ f2' =>
        rw [chunksOfAux, chunksOfAux]
        congr 1
        refine ih f2' _ ?_ ?_ <;>
          simp only [List.length_drop, List.length_cons, audioChunkSize_eq] at * <;> omega

theorem chunksOf_cons (d : Nat) (ds : List Nat) :
    chunksOf (d :: ds) = (d :: ds).take audioChunkSize :: chunksOf ((d :: ds).drop audioChunkSize) := by
  rw [chunksOf, List.length_cons, chunksOfAux]
  congr 1
  refine chunksOfAux_fuelFree _ _ _ ?_ le_rfl
  simp only [List.length_drop, List.length_cons, audioChunkSize_eq]
  omega

theorem chunksOf_length :
    ∀ fuel (data : List Nat), data.length ≤ fuel →
      (chunksOf data).length = (data.length + audioChunkSize - 1) / audioChunkSize := by
  intro fuel
  induction fuel with
  | zero =>
    intro data h
    have : data = [] := List.eq_nil_of_length_eq_zero (Nat.le_zero.mp h)
    subst this
    decide
  | succ f ih =>
    intro data h
    cases data with
    | nil => decide
    | cons d ds =>
      rw [chunksOf_cons, List.length_cons]
      rw [ih _ (by simp only [List.length_drop, List.length_cons, audioChunkSize_eq] at *; omega)]
      simp only [List.length_drop, List.length_cons, audioChunkSize_eq]
      omega

theorem chunksOf_flatten :
    ∀ fuel (data : List Nat), data.length ≤ fuel → (chunksOf data).flatten = data := by
  intro fuel
  induction fuel with
  | zero =>
    intro data h
    have : data = [] := List.eq_nil_of_length_eq_zero (Nat.le_zero.mp h)
    subst this
    rfl
  | succ f ih =>
    intro data h
    cases data with
    | nil => rfl
    | cons d ds =>
      rw [chunksOf_cons, List.flatten_cons,
        ih _ (by simp only [List.length_drop, List.length_cons, audioChunkSize_eq] at *; omega)]
      exact List.take_append_drop _ _

theorem appendEvents_length (l : List (List Nat)) :
    ∀ cnt : Nat, (appendEvents cnt l).length = l.length := by
  induction l with
  | nil => intro cnt; rfl
  | cons ch rest ih => intro cnt; simp [appendEvents, ih]

theorem appendEvents_getElem? (l : List (List Nat)) :
    ∀ cnt k : Nat, (appendEvents cnt l)[k]?
      = (l[k]?).map
          (fun ch =>
            OutEvent.inputAudioBufferAppend (appendEventId (cnt + k + 1)) (base64Encode ch)) := by
  induction l with
  | nil => intro cnt k; simp [appendEvents]
  | cons ch rest ih =>
    intro cnt k
    cases k with
    | zero => simp [appendEvents]
    | succ k' =>
      simp only [appendEvents, List.getElem?_cons_succ, ih (cnt + 1) k']
      have h : cnt + 1 + k' + 1 = cnt + (k' + 1) + 1 := by omega
      rw [h]

theorem sendAudioChunkLoop_allOk (ok : Nat → Bool) :
    ∀ fuel (data : List Nat) callIdx cnt, data.length ≤ fuel →
      (∀ m, callIdx ≤ m → m ≤ callIdx + (chunksOf data).length → ok m = true) →
      sendAudioChunkLoop ok fuel callIdx cnt data
        = (appendEvents cnt (chunksOf data)
            ++ [.inputAudioBufferCommit (commitEventId (cnt + (chunksOf data).length))],
           callIdx + (chunksOf data).length + 1, none) := by
  intro fuel
  induction fuel with
  | zero =>
    intro data callIdx cnt h hok
    have : data = [] := List.eq_nil_of_length_eq_zero (Nat.le_zero.mp h)
    subst this
    simp [sendAudioChunkLoop, hok callIdx le_rfl (by simp [chunksOf, chunksOfAux]),
      chunksOf, chunksOfAux, appendEvents]
  | succ f ih =>
    intro data callIdx cnt h hok
    cases data with
    | nil =>
      simp [sendAudioChunkLoop, hok callIdx le_rfl (by simp [chunksOf, chunksOfAux]),
        chunksOf, chunksOfAux, appendEvents]
    | cons d ds =>
      have hlen : ((d :: ds).drop audioChunkSize).length ≤ f := by
        simp only [List.length_drop, List.length_cons, audioChunkSize_eq] at *
        omega
      have hK : (chunksOf (d :: ds)).length
          = (chunksOf ((d :: ds).drop audioChunkSize)).length + 1 := by
        rw [chunksOf_cons]
        simp
      rw [sendAudioChunkLoop,
        if_pos (hok callIdx le_rfl (by omega)),
        ih _ (callIdx + 1) (cnt + 1) hlen (fun m h1 h2 => hok m (by omega) (by omega))]
      rw [chunksOf_cons, appendEvents]
      have hc1 : cnt + 1 + (chunksOf ((d :: ds).drop audioChunkSize)).length
          = cnt + ((chunksOf ((d :: ds).drop audioChunkSize)).length + 1) := by omega
      have hc2 : callIdx + 1 + (chunksOf ((d :: ds).drop audioChunkSize)).length + 1
          = callIdx + ((chunksOf ((d :: ds).drop audioChunkSize)).length + 1) + 1 := by omega
      simp only [List.cons_append, List.length_cons, hc1, hc2]

theorem validateWAVFormat_encodeWAV (pcm : List Nat) :
    validateWAVFormat (encodeWAV pcm) = .ok () := by
  rw [validateWAVFormat, encodeWAV, parseWAVHeader_writeWAVHeader]
  simp [validateHeader, goodWAVHeader]

theorem encodeWAV_drop_44 (pcm : List Nat) : (encodeWAV pcm).drop 44 = pcm := by
  rw [encodeWAV]
  have h := List.drop_left (writeWAVHeader (pcm.length % 2 ^ 32)) pcm
  rwa [writeWAVHeader_length] at h

theorem sendAudioMessage_of_valid (ok : Nat → Bool) (fileBytes : List Nat)
    (h : validateWAVFormat fileBytes = .ok ()) :
    sendAudioMessage ok fileBytes = sendAudioBody ok (fileBytes.drop 44) := by
  unfold sendAudioMessage
  rw [h]

/-- Claim C5: uploading a valid WAV file whose raw audio payload `pcm` (the
file minus the 44-byte header) is non-empty emits, in order, the
conversation-item event, exactly `ceil(len pcm / 16384)` append events —
each carrying a base64 payload under the strictly increasing event id
`evt_audio_k` — exactly one commit event, and the response request; the
base64-decoded append payloads concatenate back to `pcm`. -/
theorem claim_C5 (pcm : List Nat) (h256 : ∀ b ∈ pcm, b < 256) (_hne : pcm ≠ []) :
    sendAudioMessage (fun _ => true) (encodeWAV pcm)
        = (.conversationItemCreate
            :: (appendEvents 0 (chunksOf pcm)
              ++ [.inputAudioBufferCommit (commitEventId (chunksOf pcm).length),
                  .responseCreate]), none)
      ∧ (chunksOf pcm).length = (pcm.length + audioChunkSize - 1) / audioChunkSize
      ∧ (∀ k : Nat, (appendEvents 0 (chunksOf pcm))[k]?
          = ((chunksOf pcm)[k]?).map
              (fun ch =>
                OutEvent.inputAudioBufferAppend (appendEventId (k + 1)) (base64Encode ch)))
      ∧ (chunksOf pcm).map (fun ch => base64Decode (base64Encode ch))
          = (chunksOf pcm).map some
      ∧ (chunksOf pcm).flatten = pcm := by
  refine ⟨?_, chunksOf_length pcm.length pcm le_rfl, ?_, ?_, chunksOf_flatten pcm.length pcm le_rfl⟩
  · have hl := sendAudioChunkLoop_allOk (fun _ => true) pcm.length pcm 1 0 le_rfl
      (fun _ _ _ => rfl)
    rw [sendAudioMessage_of_valid _ _ (validateWAVFormat_encodeWAV pcm), encodeWAV_drop_44]
    simp only [sendAudioBody, hl]
    simp [List.append_assoc]
  · intro k
    rw [appendEvents_getElem?]
    simp
  · refine List.map_congr_left ?_
    intro ch hch
    refine base64_roundtrip ch ?_
    intro b hb
    refine h256 b ?_
    rw [← chunksOf_flatten pcm.length pcm le_rfl]
    exact List.mem_flatten.mpr ⟨ch, hch, hb⟩

/-- Witness for claim C5 on the three-byte payload [65, 66, 67]. -/
theorem claim_C5_witness :
    sendAudioMessage (fun _ => true) (encodeWAV [65, 66, 67])
        = (.conversationItemCreate
            :: (appendEvents 0 (chunksOf [65, 66, 67])
              ++ [.inputAudioBufferCommit (commitEventId (chunksOf [65, 66, 67]).length),
                  .responseCreate]), none)
      ∧ (chunksOf [65, 66, 67]).length
          = ([65, 66, 67].length + audioChunkSize - 1) / audioChunkSize
      ∧ (appendEvents 0 (chunksOf [65, 66, 67]))[0]?
          = ((chunksOf [65, 66, 67])[0]?).map
              (fun ch =>
                OutEvent.inputAudioBufferAppend (appendEventId (0 + 1)) (base64Encode ch))
      ∧ (chunksOf [65, 66, 67]).flatten = [65, 66, 67] :=
  ⟨(claim_C5 [65, 66, 67] (by decide) (by decide)).1,
   (claim_C5 [65, 66, 67] (by decide) (by decide)).2.1,
   (claim_C5 [65, 66, 67] (by decide) (by decide)).2.2.1 0,
   (claim_C5 [65, 66, 67] (by decide) (by decide)).2.2.2.2⟩

theorem sendAudioChunkLoop_firstFail (ok : Nat → Bool) :
    ∀ fuel (data : List Nat) callIdx cnt j, data.length ≤ fuel →
      callIdx ≤ j → j ≤ callIdx + (chunksOf data).length →
      (∀ m, callIdx ≤ m → m < j → ok m = true) → ok j = false →
      sendAudioChunkLoop ok fuel callIdx cnt data
        = if j < callIdx + (chunksOf data).length then
            ((appendEvents cnt (chunksOf data)).take (j - callIdx), j, some .writeAudioChunk)
          else (appendEvents cnt (chunksOf data), j, some .writeAudioCommit) := by
  intro fuel
  induction fuel with
  | zero =>
    intro data callIdx cnt j h hlo hhi _ hfail
    have hdata : data = [] := List.eq_nil_of_length_eq_zero (Nat.le_zero.mp h)
    subst hdata
    simp only [chunksOf, chunksOfAux, List.length_nil, Nat.add_zero] at hhi ⊢
    have hj : j = callIdx := by omega
    subst hj
    simp [sendAudioChunkLoop, hfail, appendEvents]
  | succ f ih =>
    intro data callIdx cnt j h hlo hhi hfirst hfail
    cases data with
    | nil =>
      simp only [chunksOf, chunksOfAux, List.length_nil, Nat.add_zero] at hhi ⊢
      have hj : j = callIdx := by omega
      subst hj
      simp [sendAudioChunkLoop, hfail, appendEvents]
    | cons d ds =>
      have hK : (chunksOf (d :: ds)).length
          = (chunksOf ((d :: ds).drop audioChunkSize)).length + 1 := by
        rw [chunksOf_cons]
        simp
      have hlen : ((d :: ds).drop audioChunkSize).length ≤ f := by
        simp only [List.length_drop, List.length_cons, audioChunkSize_eq] at *
        omega
      have hAE : appendEvents cnt (chunksOf (d :: ds))
          = .inputAudioBufferAppend (appendEventId (cnt + 1))
              (base64Encode ((d :: ds).take audioChunkSize))
            :: appendEvents (cnt + 1) (chunksOf ((d :: ds).drop audioChunkSize)) := by
        rw [chunksOf_cons, appendEvents]
      by_cases hj0 : j = callIdx
      · subst hj0
        rw [sendAudioChunkLoop, if_neg (by simp [hfail]), if_pos (by omega)]
        simp [Nat.sub_self]
      · have hok0 : ok callIdx = true := hfirst callIdx le_rfl (by omega)
        rw [sendAudioChunkLoop, if_pos hok0,
          ih _ (callIdx + 1) (cnt + 1) j hlen (by omega) (by omega)
            (fun m h1 h2 => hfirst m (by omega) h2) hfail]
        by_cases hcase : j < callIdx + 1 + (chunksOf ((d :: ds).drop audioChunkSize)).length
        · rw [if_pos hcase, if_pos (by omega)]
          obtain ⟨m, hm⟩ : ∃ m, j - callIdx = m + 1 := ⟨j - callIdx - 1, by omega⟩
          have hm' : j - (callIdx + 1) = m := by omega
          rw [hAE, hm, hm', List.take_succ_cons]
        · rw [if_neg hcase, if_neg (by omega), hAE]

/-- Claim C8 (amended): during an upload every send — the conversation item,
each per-chunk append, the commit, and the response request — is a single
direct write with no retry, and the first failing write aborts the whole
upload, emitting exactly the events before the failure and returning the
originating error; when every write succeeds the full trace is emitted.
Amendment: `sendAudioMessage` does not route its writes through
`sendWithRetry` (that helper belongs to the separate text-only client in
maingo.go), so a single transient failure aborts the upload instead of being
retried — see the counterexample. -/
theorem claim_C8 :
    (∀ (pcm : List Nat) (ok : Nat → Bool) (j : Nat),
      (∀ m, m < j → ok m = true) → ok j = false → j < (chunksOf pcm).length + 3 →
      sendAudioMessage ok (encodeWAV pcm)
        = ((fullUploadTrace pcm).take j,
           some (if j = 0 then .writeConversationItem
             else if j ≤ (chunksOf pcm).length then .writeAudioChunk
             else if j = (chunksOf pcm).length + 1 then .writeAudioCommit
             else .writeResponseCreate)))
    ∧ (∀ (pcm : List Nat) (ok : Nat → Bool),
      (∀ m, m ≤ (chunksOf pcm).length + 2 → ok m = true) →
      sendAudioMessage ok (encodeWAV pcm) = (fullUploadTrace pcm, none)) := by
  constructor
  · intro pcm ok j hfirst hfail hj
    rw [sendAudioMessage_of_valid _ _ (validateWAVFormat_encodeWAV pcm), encodeWAV_drop_44]
    have hlenAE : (appendEvents 0 (chunksOf pcm)).length = (chunksOf pcm).length :=
      appendEvents_length _ 0
    by_cases hj0 : j = 0
    · subst hj0
      rw [sendAudioBody, if_neg (by simp [hfail])]
      simp
    · have hok0 : ok 0 = true := hfirst 0 (by omega)
      rw [sendAudioBody, if_pos hok0]
      by_cases hjK : j ≤ (chunksOf pcm).length
      · rw [sendAudioChunkLoop_firstFail ok pcm.length pcm 1 0 j le_rfl (by omega)
            (by omega) (fun m _ h2 => hfirst m h2) hfail,
          if_pos (by omega)]
        simp only []
        rw [fullUploadTrace]
        obtain ⟨m, hm⟩ : ∃ m, j = m + 1 := ⟨j - 1, by omega⟩
        subst hm
        rw [List.take_succ_cons, List.take_append_of_le_length (by omega)]
        simp only [Nat.add_sub_cancel]
        rw [if_neg (by omega), if_pos (by omega)]
      · by_cases hjK1 : j = (chunksOf pcm).length + 1
        · rw [sendAudioChunkLoop_firstFail ok pcm.length pcm 1 0 j le_rfl (by omega)
              (by omega) (fun m _ h2 => hfirst m h2) hfail,
            if_neg (by omega)]
          simp only []
          rw [fullUploadTrace, hjK1, List.take_succ_cons,
            List.take_append_of_le_length (by omega)]
          have htk : (appendEvents 0 (chunksOf pcm)).take (chunksOf pcm).length
              = appendEvents 0 (chunksOf pcm) := by
            rw [← hlenAE]
            exact List.take_length _
          rw [htk, if_neg (by omega), if_neg (by omega), if_pos rfl]
        · have hj2 : j = (chunksOf pcm).length + 2 := by omega
          rw [sendAudioChunkLoop_allOk ok pcm.length pcm 1 0 le_rfl
              (fun m h1 h2 => hfirst m (by omega))]
          simp only []
          rw [if_neg (by rw [(by omega : 1 + (chunksOf pcm).length + 1 = j)]; simp [hfail])]
          rw [fullUploadTrace, hj2, List.take_succ_cons]
          have htk : ∀ e1 e2 : OutEvent,
              (appendEvents 0 (chunksOf pcm) ++ [e1, e2]).take ((chunksOf pcm).length + 1)
                = appendEvents 0 (chunksOf pcm) ++ [e1] := by
            intro e1 e2
            rw [← hlenAE]
            have h := @List.take_append OutEvent (appendEvents 0 (chunksOf pcm)) [e1, e2] 1
            rw [h]
            rfl
          rw [htk _ _, if_neg (by omega), if_neg (by omega), if_neg (by omega)]
          simp
  · intro pcm ok hok
    rw [sendAudioMessage_of_valid _ _ (validateWAVFormat_encodeWAV pcm), encodeWAV_drop_44]
    rw [sendAudioBody, if_pos (hok 0 (by omega)),
      sendAudioChunkLoop_allOk ok pcm.length pcm 1 0 le_rfl
        (fun m h1 h2 => hok m (by omega))]
    simp only []
    rw [if_pos (hok (1 + (chunksOf pcm).length + 1) (by omega))]
    rw [fullUploadTrace]
    simp [List.append_assoc]

/-- Witness for claim C8: uploading the one-byte payload [5], a transport
failure at call 1 (the first chunk append) aborts after the conversation
item with the chunk-write error, and an always-succeeding transport emits
the full trace. -/
theorem claim_C8_witness :
    sendAudioMessage (fun n => n != 1) (encodeWAV [5])
        = ((fullUploadTrace [5]).take 1,
           some (if 1 = 0 then .writeConversationItem
             else if 1 ≤ (chunksOf [5]).length then .writeAudioChunk
             else if 1 = (chunksOf [5]).length + 1 then .writeAudioCommit
             else .writeResponseCreate))
      ∧ sendAudioMessage (fun _ => true) (encodeWAV [5]) = (fullUploadTrace [5], none) :=
  ⟨claim_C8.1 [5] (fun n => n != 1) 1 (by decide) (by decide) (by decide),
   claim_C8.2 [5] (fun _ => true) (fun _ _ => rfl)⟩

/-- Counterexample to claim C8 as stated: with a transport that fails only
on call 1 (the first chunk append) and succeeds on every other call, the
source's upload aborts with the chunk-write error after the conversation
item, whereas the spec-described retry upload (every send through
`sendWithRetry`) recovers on the second attempt and completes the full
event sequence. -/
theorem claim_C8_counterexample :
    sendAudioMessage (fun n => n != 1) (encodeWAV [0])
        ≠ sendAudioMessageRetry (fun n => n != 1) (encodeWAV [0])
      ∧ sendAudioMessage (fun n => n != 1) (encodeWAV [0])
        = ([.conversationItemCreate], some .writeAudioChunk)
      ∧ sendAudioMessageRetry (fun n => n != 1) (encodeWAV [0])
        = ([.conversationItemCreate,
            .inputAudioBufferAppend (appendEventId 1) (base64Encode [0]),
            .inputAudioBufferCommit (commitEventId 1), .responseCreate], none) := by
  refine ⟨by decide, by decide, by decide⟩

/-- Claim C6 (amended): in the receive loop a read timeout re-issues the
blocking receive, a clean close (code 1000 or 1001) terminates the loop
without signalling an error, and an unexpected websocket close error (any
other close code) triggers the coordinator's shutdown and terminates the
loop.  Amendment: a transport read error that is neither a timeout nor a
websocket close error is logged, counted, and retried — it does not trigger
shutdown, contrary to the claim's "every other transport read error is
fatal" (see the counterexample). -/
theorem claim_C6 :
    classifyReadError .timeout = .retryRead
      ∧ (∀ code, code = 1000 ∨ code = 1001 →
          classifyReadError (.closeError code) = .exitLoop)
      ∧ (∀ code, code ≠ 1000 → code ≠ 1001 →
          classifyReadError (.closeError code) = .shutdownAndExit)
      ∧ classifyReadError .other = .retryRead := by
  refine ⟨rfl, ?_, ?_, rfl⟩
  · intro code h
    simp [classifyReadError, h]
  · intro code h1 h2
    simp [classifyReadError, h1, h2]

/-- Witness for claim C6 at the concrete close codes 1000 (normal closure)
and 1006 (abnormal closure). -/
theorem claim_C6_witness :
    classifyReadError (.closeError 1000) = .exitLoop
      ∧ classifyReadError (.closeError 1006) = .shutdownAndExit :=
  ⟨claim_C6.2.1 1000 (Or.inl rfl), claim_C6.2.2.1 1006 (by decide) (by decide)⟩

/-- Counterexample to claim C6 as stated: a non-timeout, non-close read
error makes the loop continue (re-issue the receive) rather than trigger
shutdown and terminate. -/
theorem claim_C6_counterexample :
    classifyReadError .other = .retryRead
      ∧ classifyReadError .other ≠ .shutdownAndExit :=
  ⟨rfl, by decide⟩

theorem shutdown_idem (st : ShutdownState) : shutdown (shutdown st) = shutdown st := by
  by_cases h : st.shutdownStarted = true
  · simp [shutdown, h]
  · simp [shutdown, h]

/-- Claim C9: the shutdown operation is idempotent — any positive number of
invocations, no matter the trigger, is indistinguishable from a single one:
the close sequence (close the done signal, close the connection, close the
logger, wait for spawned tasks bounded by ShutdownTimeout, close the
internal channels) is executed exactly once, and every invocation returns
(the embedding is a total function). -/
theorem claim_C9 (n : Nat) (hn : 1 ≤ n) :
    (∀ st : ShutdownState, shutdown^[n] st = shutdown st)
      ∧ (shutdown^[n] { shutdownStarted := false, trace := [] }).trace = closeSequence
      ∧ (shutdown^[n] { shutdownStarted := false, trace := [] }).shutdownStarted = true := by
  have hiter : ∀ m : Nat, ∀ st : ShutdownState, shutdown^[m + 1] st = shutdown st := by
    intro m
    induction m with
    | zero => intro st; rfl
    | succ k ih =>
      intro st
      rw [Function.iterate_succ_apply, ih (shutdown st), shutdown_idem]
  obtain ⟨m, rfl⟩ : ∃ m, n = m + 1 := ⟨n - 1, by omega⟩
  refine ⟨hiter m, ?_, ?_⟩
  · rw [hiter m]
    simp [shutdown, closeSequence]
  · rw [hiter m]
    simp [shutdown]

/-- Witness for claim C9 at three invocations from a fresh client state. -/
theorem claim_C9_witness :
    shutdown^[3] { shutdownStarted := false, trace := [] }
        = shutdown { shutdownStarted := false, trace := [] }
      ∧ (shutdown^[3] { shutdownStarted := false, trace := [] }).trace = closeSequence :=
  ⟨(claim_C9 3 (by decide)).1 _, (claim_C9 3 (by decide)).2.1⟩

end GeppetoAudio
